import Mathlib

/-!
Verification development for the GBLM-Pruner calibration-data pipeline
(`lib/data.py`) and pruning-run orchestration (`main.py`).

The Python code draws random integers from the process-wide `random`
module, reseeded with `random.seed(seed)` at the start of each sampler.
We model that global generator as a state `RngState = (seed, counter)`
together with an arbitrary deterministic mixing function
`mix : Nat → Nat → Nat`; `random.randint(lo, hi)` becomes `randint`,
which fails (as Python raises `ValueError`) when `hi < lo` and otherwise
returns a value in the inclusive range `[lo, hi]` while advancing the
counter.  `random.seed(seed)` becomes replacing the current state by
`seedRng seed`, so each sampler takes the pre-existing global state `g0`
as an extra argument and immediately discards it.

Tokenizers are abstracted as a function from text to an aligned sequence
of `(input_id, attention_mask_bit)` pairs plus an optional
`model_max_length`; calling the tokenizer with `max_length = m,
truncation=True` keeps the first `m` pairs.  The unbounded `while True`
rejection loop in `get_c4` is embedded with an explicit fuel parameter.
-/

namespace Pruner

/-- State of Python's global `random` generator after `random.seed`:
the seed it was last seeded with and how many draws happened since. -/
structure RngState where
  seed : Nat
  counter : Nat
  deriving DecidableEq, Repr

/-- Advance the generator by one draw. -/
def RngState.next (g : RngState) : RngState :=
  ⟨g.seed, g.counter + 1⟩

/-- `random.seed(seed)`: the global generator state is reset to a pure
function of `seed`. -/
def seedRng (s : Nat) : RngState :=
  ⟨s, 0⟩

variable (mix : Nat → Nat → Nat)

/-- `random.randint(lo, hi)`: inclusive-range draw.  Raises (returns
`none`) when `hi < lo`, exactly as Python raises `ValueError`. -/
def randint (lo hi : Int) (g : RngState) : Option (Int × RngState) :=
  if lo ≤ hi then
    some (lo + (mix g.seed g.counter : Int) % (hi - lo + 1), g.next)
  else none

/-- One token of tokenizer output: `(input_id, attention_mask_bit)`.
HuggingFace tokenizers return `input_ids` and `attention_mask` as two
aligned sequences of equal length; we keep them zipped. -/
abbrev Token := Nat × Nat

/-- The tokenizer interface the samplers use: raw encoding of a text,
plus the optional `model_max_length` attribute read by
`getattr(tokenizer, 'model_max_length', seqlen)`. -/
structure Tokenizer where
  encode : String → List Token
  modelMaxLength : Option Nat

/-- A `BatchEncoding`: the `input_ids` and `attention_mask` tensors. -/
structure Encoding where
  input_ids : List Nat
  attention_mask : List Nat
  deriving DecidableEq, Repr

/-- `tokenizer(text, return_tensors='pt', max_length=maxLength,
truncation=True)`: encode and keep the first `maxLength` tokens. -/
def tokenize (tok : Tokenizer) (maxLength : Nat) (text : String) : Encoding :=
  let pairs := (tok.encode text).take maxLength
  ⟨pairs.map Prod.fst, pairs.map Prod.snd⟩

/-- One calibration sample `(inp, attention_mask, tar)` as appended to
`trainloader`. -/
structure Sample where
  inp : List Nat
  mask : List Nat
  tar : List Nat
  deriving DecidableEq, Repr

/-- The shared per-sample slice logic of `get_wikitext2` / `get_c4`
(lines 39–45 and 66–72 of `data.py`):
`i = random.randint(0, L - seqlen - 1); j = i + seqlen;
inp = input_ids[:, i:j]; attention_mask = attention_mask[:, i:j];
tar = inp.clone()` — the masking line `tar[:, :-1] = -100` is commented
out in the source, so `tar` stays a verbatim copy of `inp`. -/
def sampleDraw (enc : Encoding) (seqlen : Nat) (g : RngState) :
    Option (Sample × RngState) :=
  match randint mix 0 ((enc.input_ids.length : Int) - (seqlen : Int) - 1) g with
  | none => none
  | some (i, g') =>
      let iN := i.toNat
      let inp := (enc.input_ids.drop iN).take seqlen
      let msk := (enc.attention_mask.drop iN).take seqlen
      some ({ inp := inp, mask := msk, tar := inp }, g')

/-- The `for _ in range(nsamples)` loop of `get_wikitext2`, threading the
global RNG state. -/
def sampleLoop (enc : Encoding) (seqlen : Nat) :
    Nat → RngState → Option (List Sample × RngState)
  | 0, g => some ([], g)
  | n + 1, g =>
      match sampleDraw mix enc seqlen g with
      | none => none
      | some (s, g') =>
          match sampleLoop enc seqlen n g' with
          | none => none
          | some (l, g'') => some (s :: l, g'')

/-- The wikitext-2 corpus: the `train` and `test` splits, each an
ordered list of raw text records. -/
structure WikiCorpus where
  trainRecords : List String
  testRecords : List String

/-- `get_wikitext2(nsamples, seed, seqlen, tokenizer)` from `data.py`.
`g0` is the state of the global generator on entry; the function starts
with `random.seed(seed)`, which discards it. -/
def get_wikitext2 (g0 : RngState) (corpus : WikiCorpus)
    (nsamples seed seqlen : Nat) (tok : Tokenizer) :
    Option (List Sample × Encoding) :=
  let maxLength := tok.modelMaxLength.getD seqlen
  let trainenc := tokenize tok maxLength (String.intercalate " " corpus.trainRecords)
  let testenc := tokenize tok maxLength (String.intercalate "\n\n" corpus.testRecords)
  match sampleLoop mix trainenc seqlen nsamples (seedRng seed) with
  | none => none
  | some (l, _) => some (l, testenc)

/-- The c4 corpus: the `train` and `validation` splits as lists of
individual records (not pre-joined). -/
structure C4Corpus where
  trainRecords : List String
  valRecords : List String

/-- The `while True` rejection loop of `get_c4` (lines 61–65):
repeatedly `i = random.randint(0, len(traindata) - 1)`, tokenize
`traindata[i]['text']`, stop once `trainenc.input_ids.shape[1] > seqlen`.
The source loop is unbounded; `fuel` bounds how many draws we unfold. -/
def findLongRecord (records : List String) (tok : Tokenizer)
    (maxLength seqlen : Nat) : Nat → RngState → Option (Encoding × RngState)
  | 0, _ => none
  | fuel + 1, g =>
      match randint mix 0 ((records.length : Int) - 1) g with
      | none => none
      | some (i, g') =>
          let trainenc := tokenize tok maxLength (records.getD i.toNat "")
          if seqlen < trainenc.input_ids.length then some (trainenc, g')
          else findLongRecord records tok maxLength seqlen fuel g'

/-- One iteration of `get_c4`'s sampling loop: find a long-enough record,
then cut a window from it exactly as in the wikitext-2 path. -/
def c4SampleOne (records : List String) (tok : Tokenizer)
    (maxLength seqlen fuel : Nat) (g : RngState) : Option (Sample × RngState) :=
  match findLongRecord mix records tok maxLength seqlen fuel g with
  | none => none
  | some (trainenc, g1) => sampleDraw mix trainenc seqlen g1

/-- The `for _ in range(nsamples)` loop of `get_c4`. -/
def c4SampleLoop (records : List String) (tok : Tokenizer)
    (maxLength seqlen fuel : Nat) :
    Nat → RngState → Option (List Sample × RngState)
  | 0, g => some ([], g)
  | n + 1, g =>
      match c4SampleOne mix records tok maxLength seqlen fuel g with
      | none => none
      | some (s, g') =>
          match c4SampleLoop records tok maxLength seqlen fuel n g' with
          | none => none
          | some (l, g'') => some (s :: l, g'')

/-- `get_c4(nsamples, seed, seqlen, tokenizer)` from `data.py`.  The
validation encoding joins the first 1100 validation records with single
spaces, tokenizes once under the `max_length` cap, and keeps
`input_ids[:, :(256 * seqlen)]` (wrapped in `TokenizerWrapper`, i.e.
only the ids survive). -/
def get_c4 (g0 : RngState) (corpus : C4Corpus)
    (nsamples seed seqlen : Nat) (tok : Tokenizer) (fuel : Nat) :
    Option (List Sample × List Nat) :=
  let maxLength := tok.modelMaxLength.getD seqlen
  match c4SampleLoop mix corpus.trainRecords tok maxLength seqlen fuel
      nsamples (seedRng seed) with
  | none => none
  | some (l, _) =>
      let valenc := tokenize tok maxLength
        (String.intercalate " " (corpus.valRecords.take 1100))
      some (l, valenc.input_ids.take (256 * seqlen))

/-- Char-list version of Python's substring test: does the text start
with the pattern? -/
def leadMatch : List Char → List Char → Bool
  | [], _ => true
  | _ :: _, [] => false
  | p :: ps, c :: cs => p == c && leadMatch ps cs

/-- Char-list version of Python's substring test: does the pattern occur
anywhere in the text? -/
def hasSub (pat : List Char) : List Char → Bool
  | [] => leadMatch pat []
  | c :: cs => leadMatch pat (c :: cs) || hasSub pat cs

/-- Python's `pat in hay` on strings. -/
def strContains (hay pat : String) : Bool :=
  hasSub pat.toList hay.toList

/-- `get_loaders(name, nsamples, seed, seqlen, tokenizer)` from
`data.py`: substring dispatch on the corpus name; an unrecognized name
falls off the end of the function (Python returns `None`). -/
def get_loaders (name : String) (g0 : RngState)
    (wiki : WikiCorpus) (c4corpus : C4Corpus)
    (nsamples seed seqlen : Nat) (tok : Tokenizer) (fuel : Nat) :
    Option (List Sample × (Encoding ⊕ List Nat)) :=
  if strContains name "wikitext2" then
    (get_wikitext2 mix g0 wiki nsamples seed seqlen tok).map
      (fun p => (p.1, Sum.inl p.2))
  else if strContains name "c4" then
    (get_c4 mix g0 c4corpus nsamples seed seqlen tok fuel).map
      (fun p => (p.1, Sum.inr p.2))
  else none

/-- Length of the truncated tokenization of a single record — the
quantity `trainenc.input_ids.shape[1]` tested by the rejection loop. -/
def tokLen (tok : Tokenizer) (maxLength : Nat) (r : String) : Nat :=
  (tokenize tok maxLength r).input_ids.length

/-- Index of the record chosen by the k-th draw of a rejection loop
started in state `g` (each draw advances the counter by one). -/
def drawIdx (records : List String) (g : RngState) (k : Nat) : Nat :=
  mix g.seed (g.counter + k) % records.length

/-- Termination condition of `get_c4`'s sampling loop: in each of the
`n` iterations, the rejection loop started at the current RNG state
finds a long-enough record within some finite number of draws (after
which one more draw cuts the window, advancing the state once). -/
def itersReach (records : List String) (tok : Tokenizer)
    (maxLength seqlen : Nat) : Nat → RngState → Prop
  | 0, _ => True
  | n + 1, g => ∃ fuel enc g1,
      findLongRecord mix records tok maxLength seqlen fuel g = some (enc, g1) ∧
      itersReach records tok maxLength seqlen n g1.next

/-! Embedding of `main.py`'s orchestration (`main`, lines 86–165).
The externals it calls — model loading, the five pruning criteria,
`check_sparsity`, `eval_ppl`, filesystem writes — are recorded as events
in a trace; their numeric results come from an abstract environment. -/

/-- The command-line arguments `main` consumes (only the fields the
orchestration logic reads).  `sparsity_ratio` is a Python float holding
values such as 0, 0.3 or 0.5, modelled exactly as a rational. -/
structure Args where
  model : String
  sparsity_type : String
  sparsity_ratio : ℚ
  prune_method : String
  layer_no : Int
  save : String
  save_model : Option String

/-- Results of the opaque collaborators, fixed for one run: the device
map entry `hf_device_map["lm_head"]`, the value of
`check_sparsity(model, args)` and the value of
`eval_ppl(model, tokenizer, device)`. -/
structure Env where
  lmHeadDevice : String
  sparsityResult : ℚ
  pplResult : ℚ

/-- Observable side effects of `main` in program order. -/
inductive Event where
  | loadModel (id : String)
  | pruneCall (method : String)
  | audit (result : ℚ)
  | evalPpl (result : ℚ)
  | writeLog (sparsity ppl : ℚ)
  | saveModel (path : String)
  deriving DecidableEq, Repr

/-- Python's `str.split(sep)` for a single-character separator, over the
character list. -/
def splitOnChar (sep : Char) : List Char → List (List Char)
  | [] => [[]]
  | c :: cs =>
      match splitOnChar sep cs with
      | [] => if c = sep then [[], []] else [[c]]
      | r :: rs => if c = sep then [] :: r :: rs else (c :: r) :: rs

/-- Accumulator for decimal parsing. -/
def digitsValAux (a : Nat) : List Char → Option Nat
  | [] => some a
  | c :: cs =>
      if c.isDigit then digitsValAux (a * 10 + (c.toNat - 48)) cs else none

/-- Python's `int(s)` on a nonnegative decimal string; fails (raises
`ValueError`) on an empty or non-numeric string. -/
def digitsVal : List Char → Option Nat
  | [] => none
  | c :: cs => digitsValAux 0 (c :: cs)

/-- `map(int, args.sparsity_type.split(":"))` unpacked into two values;
fails unless the string is exactly `n:m` with both parts numeric. -/
def parseNM (s : String) : Option (Nat × Nat) :=
  match (splitOnChar ':' s.toList).map digitsVal with
  | [some n, some m] => some (n, m)
  | _ => none

/-- Lines 91–94 of `main.py`: `prune_n, prune_m = 0, 0`; for a
non-unstructured sparsity type, `assert args.sparsity_ratio == 0.5`
(an `AssertionError` aborts the run) and parse `N:M`. -/
def configureSparsity (stype : String) (ratio : ℚ) : Except String (Nat × Nat) :=
  if stype ≠ "unstructured" then
    if ratio = 1 / 2 then
      match parseNM stype with
      | some nm => Except.ok nm
      | none => Except.error "malformed N:M sparsity type"
    else Except.error "sparsity ratio must be 0.5 for structured N:M sparsity"
  else Except.ok (0, 0)

/-- Downstream device handle: `torch.device("cuda:0")` or an entry of
`model.hf_device_map`. -/
inductive Device where
  | cuda0
  | fromMap (d : String)
  deriving DecidableEq, Repr

/-- Lines 122–124 of `main.py`: default to `cuda:0`, but for model
identifiers containing `30b`, `65b` or `70b` use
`model.hf_device_map["lm_head"]`. -/
def selectDevice (model : String) (env : Env) : Device :=
  if strContains model "30b" || strContains model "65b" || strContains model "70b" then
    Device.fromMap env.lmHeadDevice
  else Device.cuda0

/-- ASCII lower-casing of one character (Python's `str.lower()` on the
ASCII model identifiers this program handles). -/
def lowerChar (c : Char) : Char :=
  if 65 ≤ c.toNat ∧ c.toNat ≤ 90 then Char.ofNat (c.toNat + 32) else c

/-- Python's `s.lower()`. -/
def lowerStr (s : String) : String :=
  ⟨s.toList.map lowerChar⟩

/-- Lines 130–132 of `main.py`: `dataset_name = "c4"`, overridden to
`"qwen2.5-vl"` when the lower-cased model identifier contains
`qwen2.5-vl` or `vl`. -/
def selectDatasetName (model : String) : String :=
  if strContains (lowerStr model) "qwen2.5-vl" || strContains (lowerStr model) "vl" then
    "qwen2.5-vl"
  else "c4"

/-- Lines 133–144 of `main.py`: when `args.sparsity_ratio != 0`,
dispatch to exactly the criterion named by `args.prune_method`;
when it is 0 the whole block is skipped. -/
def pruneDispatch (args : Args) : List Event :=
  if args.sparsity_ratio ≠ 0 then
    if args.prune_method = "wanda" then [Event.pruneCall "wanda"]
    else if args.prune_method = "gblm" then [Event.pruneCall "gblm"]
    else if args.prune_method = "magnitude" then [Event.pruneCall "magnitude"]
    else if args.prune_method = "gradient" then [Event.pruneCall "gradient"]
    else if args.prune_method = "sparsegpt" then [Event.pruneCall "sparsegpt"]
    else []
  else []

/-- Lines 133–165 of `main.py`, the part executed after the calibration
corpus name has been chosen: conditional pruning dispatch, sparsity
audit, perplexity evaluation, the two-line log write to
`<save>/log.txt`, and the optional model save.  The local
`dataset_name` (`dsname`) is in scope here, exactly as in the source. -/
def runAfterCorpusSelect (args : Args) (env : Env) (dsname : String) : List Event :=
  pruneDispatch args ++
    [Event.audit env.sparsityResult,
     Event.evalPpl env.pplResult,
     Event.writeLog env.sparsityResult env.pplResult] ++
    (match args.save_model with
     | some p => [Event.saveModel p]
     | none => [])

/-- `main` (lines 86–165): validate the sparsity configuration first;
on assertion failure nothing further runs (in particular no model is
loaded).  Otherwise load the model and run the rest.  Returns the event
trace together with the configured `(prune_n, prune_m)` or the error. -/
def mainRun (args : Args) (env : Env) : List Event × Except String (Nat × Nat) :=
  match configureSparsity args.sparsity_type args.sparsity_ratio with
  | Except.error e => ([], Except.error e)
  | Except.ok nm =>
      (Event.loadModel args.model ::
        runAfterCorpusSelect args env (selectDatasetName args.model),
       Except.ok nm)

/-- Recognizer for pruning-criterion invocations in a trace. -/
def isPruneEvent : Event → Bool
  | Event.pruneCall _ => true
  | _ => false

/-- The per-sample invariant of both sampler paths: the three windows
have length exactly `seqlen` and the target is a verbatim copy of the
input. -/
def SampleOk (seqlen : Nat) (s : Sample) : Prop :=
  s.inp.length = seqlen ∧ s.mask.length = seqlen ∧
    s.tar.length = seqlen ∧ s.tar = s.inp

instance (seqlen : Nat) (s : Sample) : Decidable (SampleOk seqlen s) := by
  unfold SampleOk; infer_instance

/-! Concrete instances used to exercise the definitions. -/

/-- A concrete mixing function standing in for the Mersenne Twister. -/
def mix0 : Nat → Nat → Nat := fun s c => s + c

/-- A concrete tokenizer: one token per character, mask bit 1, with a
`model_max_length` of 40. -/
def charTok : Tokenizer :=
  ⟨fun s => s.toList.map (fun c => (c.toNat, 1)), some 40⟩

/-- A tiny wikitext-style corpus. -/
def wiki0 : WikiCorpus := ⟨["aaaa bbb", "cc ddd"], ["test text"]⟩

/-- A tiny c4-style corpus with one long and one short record. -/
def c40 : C4Corpus := ⟨["hello world rec", "ab"], ["v1 text", "v2"]⟩

/-- A c4-style corpus in which every record is short. -/
def shortC4 : C4Corpus := ⟨["abc", "dd"], ["v"]⟩

/-- A concrete environment for orchestration runs. -/
def env0 : Env := ⟨"cuda:1", 1 / 4, 6⟩

/-! Helper lemmas about the RNG and the samplers. -/

theorem randint_some_spec {lo hi : Int} {g : RngState} {i : Int} {g' : RngState}
    (h : randint mix lo hi g = some (i, g')) :
    lo ≤ hi ∧ lo ≤ i ∧ i ≤ hi ∧ g' = g.next := by
  unfold randint at h
  split at h
  · rename_i hle
    simp only [Option.some.injEq, Prod.mk.injEq] at h
    obtain ⟨h1, h2⟩ := h
    subst h1
    subst h2
    have h0 : (0 : Int) ≤ (mix g.seed g.counter : Int) % (hi - lo + 1) :=
      Int.emod_nonneg _ (by omega)
    have hlt : (mix g.seed g.counter : Int) % (hi - lo + 1) < hi - lo + 1 :=
      Int.emod_lt_of_pos _ (by omega)
    exact ⟨hle, by omega, by omega, rfl⟩
  · cases h

theorem randint_eq_some {lo hi : Int} (g : RngState) (h : lo ≤ hi) :
    randint mix lo hi g =
      some (lo + (mix g.seed g.counter : Int) % (hi - lo + 1), g.next) := by
  simp [randint, h]

theorem tokenize_mask_length (tok : Tokenizer) (m : Nat) (t : String) :
    (tokenize tok m t).attention_mask.length = (tokenize tok m t).input_ids.length := by
  simp [tokenize]

theorem sampleDraw_spec {enc : Encoding} {seqlen : Nat} {g : RngState}
    {s : Sample} {g' : RngState}
    (hmask : enc.attention_mask.length = enc.input_ids.length)
    (h : sampleDraw mix enc seqlen g = some (s, g')) :
    SampleOk seqlen s ∧ g' = g.next := by
  unfold sampleDraw at h
  cases hr : randint mix 0 ((enc.input_ids.length : Int) - (seqlen : Int) - 1) g with
  | none => rw [hr] at h; cases h
  | some p =>
      obtain ⟨i, g2⟩ := p
      rw [hr] at h
      obtain ⟨hle, hlo, hhi, hg2⟩ := randint_some_spec mix hr
      simp only [Option.some.injEq, Prod.mk.injEq] at h
      obtain ⟨hs, hg⟩ := h
      subst hs
      subst hg
      have hbound : i.toNat + seqlen ≤ enc.input_ids.length := by omega
      refine ⟨⟨?_, ?_, ?_, rfl⟩, hg2⟩
      · simp only [List.length_take, List.length_drop]
        omega
      · simp only [List.length_take, List.length_drop]
        omega
      · simp only [List.length_take, List.length_drop]
        omega

theorem sampleDraw_eq_some (enc : Encoding) (seqlen : Nat) (g : RngState)
    (h : seqlen + 1 ≤ enc.input_ids.length) :
    ∃ s, sampleDraw mix enc seqlen g = some (s, g.next) := by
  have hle : (0 : Int) ≤ (enc.input_ids.length : Int) - (seqlen : Int) - 1 := by
    omega
  unfold sampleDraw
  rw [randint_eq_some mix g hle]
  exact ⟨_, rfl⟩

theorem sampleLoop_mem (enc : Encoding) (seqlen : Nat)
    (hmask : enc.attention_mask.length = enc.input_ids.length) (n : Nat) :
    ∀ g l g'', sampleLoop mix enc seqlen n g = some (l, g'') →
      ∀ s ∈ l, SampleOk seqlen s := by
  induction n with
  | zero =>
      intro g l g'' h s hs
      simp only [sampleLoop, Option.some.injEq, Prod.mk.injEq] at h
      rw [← h.1] at hs
      cases hs
  | succ n ih =>
      intro g l g'' h s hs
      rw [sampleLoop] at h
      cases hd : sampleDraw mix enc seqlen g with
      | none => rw [hd] at h; cases h
      | some p =>
          obtain ⟨s1, g1⟩ := p
          rw [hd] at h
          cases hrec : sampleLoop mix enc seqlen n g1 with
          | none => simp only [hrec] at h; cases h
          | some q =>
              obtain ⟨l1, g2⟩ := q
              simp only [hrec, Option.some.injEq, Prod.mk.injEq] at h
              rw [← h.1] at hs
              cases hs with
              | head => exact (sampleDraw_spec mix hmask hd).1
              | tail _ hmem => exact ih g1 l1 g2 hrec s hmem

theorem findLongRecord_spec (records : List String) (tok : Tokenizer)
    (maxLength seqlen : Nat) (fuel : Nat) :
    ∀ g enc g1,
      findLongRecord mix records tok maxLength seqlen fuel g = some (enc, g1) →
      (∃ j, j < records.length ∧
          enc = tokenize tok maxLength (records.getD j "")) ∧
        seqlen < enc.input_ids.length := by
  induction fuel with
  | zero => intro g enc g1 h; cases h
  | succ fuel ih =>
      intro g enc g1 h
      rw [findLongRecord] at h
      cases hr : randint mix 0 ((records.length : Int) - 1) g with
      | none => rw [hr] at h; cases h
      | some p =>
          obtain ⟨i, g'⟩ := p
          rw [hr] at h
          obtain ⟨hle, hlo, hhi, -⟩ := randint_some_spec mix hr
          simp only at h
          split at h
          · rename_i hlong
            simp only [Option.some.injEq, Prod.mk.injEq] at h
            obtain ⟨henc, -⟩ := h
            subst henc
            exact ⟨⟨i.toNat, by omega, rfl⟩, hlong⟩
          · exact ih g' enc g1 h

theorem c4SampleOne_spec (records : List String) (tok : Tokenizer)
    (maxLength seqlen fuel : Nat) (g : RngState) (s : Sample) (g2 : RngState)
    (h : c4SampleOne mix records tok maxLength seqlen fuel g = some (s, g2)) :
    SampleOk seqlen s := by
  unfold c4SampleOne at h
  cases hf : findLongRecord mix records tok maxLength seqlen fuel g with
  | none => rw [hf] at h; cases h
  | some p =>
      obtain ⟨enc, g1⟩ := p
      rw [hf] at h
      obtain ⟨⟨j, hj, henc⟩, -⟩ := findLongRecord_spec mix records tok maxLength seqlen fuel g enc g1 hf
      have hmask : enc.attention_mask.length = enc.input_ids.length := by
        rw [henc]; exact tokenize_mask_length tok maxLength _
      exact (sampleDraw_spec mix hmask h).1

theorem c4SampleLoop_mem (records : List String) (tok : Tokenizer)
    (maxLength seqlen fuel : Nat) (n : Nat) :
    ∀ g l g'', c4SampleLoop mix records tok maxLength seqlen fuel n g = some (l, g'') →
      ∀ s ∈ l, SampleOk seqlen s := by
  induction n with
  | zero =>
      intro g l g'' h s hs
      simp only [c4SampleLoop, Option.some.injEq, Prod.mk.injEq] at h
      rw [← h.1] at hs
      cases hs
  | succ n ih =>
      intro g l g'' h s hs
      rw [c4SampleLoop] at h
      cases hd : c4SampleOne mix records tok maxLength seqlen fuel g with
      | none => rw [hd] at h; cases h
      | some p =>
          obtain ⟨s1, g1⟩ := p
          rw [hd] at h
          cases hrec : c4SampleLoop mix records tok maxLength seqlen fuel n g1 with
          | none => simp only [hrec] at h; cases h
          | some q =>
              obtain ⟨l1, g2⟩ := q
              simp only [hrec, Option.some.injEq, Prod.mk.injEq] at h
              rw [← h.1] at hs
              cases hs with
              | head => exact c4SampleOne_spec mix records tok maxLength seqlen fuel g _ g1 hd
              | tail _ hmem => exact ih g1 l1 g2 hrec s hmem

/-! Claim theorems for the calibration sampler. -/

/-- C1: for a fixed input tuple (corpus name, nsamples, seed, seqlen,
tokenizer), with the corpus contents and the tokenizer behaviour held
fixed, two independent invocations of `get_loaders` — entering with
arbitrary, possibly different, prior global-RNG states `g0` and `g1` —
return identical results on both the wikitext2 and the c4 path: the
`random.seed(seed)` call makes the calibration set a pure function of
the five inputs, so the start offsets, record choices and samples
coincide. -/
theorem get_loaders_deterministic (name : String) (g0 g1 : RngState)
    (wiki : WikiCorpus) (c4corpus : C4Corpus) (nsamples seed seqlen : Nat)
    (tok : Tokenizer) (fuel : Nat) :
    get_loaders mix name g0 wiki c4corpus nsamples seed seqlen tok fuel =
      get_loaders mix name g1 wiki c4corpus nsamples seed seqlen tok fuel := rfl

/-- C3: every calibration sample produced by either sampler path has an
input window, attention window and target window of length exactly
`seqlen`, and the target window equals the input window value for value
(the masking line is commented out in the source). -/
theorem sample_window_shape (g0 : RngState) (wiki : WikiCorpus)
    (c4corpus : C4Corpus) (nsamples seed seqlen : Nat) (tok : Tokenizer)
    (fuel : Nat) :
    (∀ l test, get_wikitext2 mix g0 wiki nsamples seed seqlen tok = some (l, test) →
       ∀ s ∈ l, s.inp.length = seqlen ∧ s.mask.length = seqlen ∧
         s.tar.length = seqlen ∧ s.tar = s.inp) ∧
    (∀ l v, get_c4 mix g0 c4corpus nsamples seed seqlen tok fuel = some (l, v) →
       ∀ s ∈ l, s.inp.length = seqlen ∧ s.mask.length = seqlen ∧
         s.tar.length = seqlen ∧ s.tar = s.inp) := by
  constructor
  · intro l test h
    simp only [get_wikitext2] at h
    cases hl : sampleLoop mix
        (tokenize tok (tok.modelMaxLength.getD seqlen)
          (String.intercalate " " wiki.trainRecords)) seqlen nsamples
        (seedRng seed) with
    | none => rw [hl] at h; cases h
    | some p =>
        obtain ⟨l1, gf⟩ := p
        simp only [hl, Option.some.injEq, Prod.mk.injEq] at h
        obtain ⟨hl1, -⟩ := h
        subst hl1
        exact fun s hs =>
          sampleLoop_mem mix _ seqlen (tokenize_mask_length tok _ _) nsamples
            (seedRng seed) _ gf hl s hs
  · intro l v h
    simp only [get_c4] at h
    cases hl : c4SampleLoop mix c4corpus.trainRecords tok
        (tok.modelMaxLength.getD seqlen) seqlen fuel nsamples (seedRng seed) with
    | none => rw [hl] at h; cases h
    | some p =>
        obtain ⟨l1, gf⟩ := p
        simp only [hl, Option.some.injEq, Prod.mk.injEq] at h
        obtain ⟨hl1, -⟩ := h
        subst hl1
        exact fun s hs =>
          c4SampleLoop_mem mix c4corpus.trainRecords tok _ seqlen fuel nsamples
            (seedRng seed) _ gf hl s hs

/-- C3 witness: a concrete wikitext2 run with `seqlen = 3` and its first
sample. -/
theorem sample_window_shape_witness :
    (Sample.mk [97, 97, 97] [1, 1, 1] [97, 97, 97]).inp.length = 3 ∧
    (Sample.mk [97, 97, 97] [1, 1, 1] [97, 97, 97]).mask.length = 3 ∧
    (Sample.mk [97, 97, 97] [1, 1, 1] [97, 97, 97]).tar.length = 3 ∧
    (Sample.mk [97, 97, 97] [1, 1, 1] [97, 97, 97]).tar =
      (Sample.mk [97, 97, 97] [1, 1, 1] [97, 97, 97]).inp :=
  (sample_window_shape mix0 ⟨9, 9⟩ wiki0 c40 2 0 3 charTok 5).1
    [⟨[97, 97, 97], [1, 1, 1], [97, 97, 97]⟩, ⟨[97, 97, 97], [1, 1, 1], [97, 97, 97]⟩]
    ⟨[116, 101, 115, 116, 32, 116, 101, 120, 116], [1, 1, 1, 1, 1, 1, 1, 1, 1]⟩
    (by decide) ⟨[97, 97, 97], [1, 1, 1], [97, 97, 97]⟩ (by decide)

/-- C4: whenever the encoded corpus has total length `L ≥ seqlen + 1`,
the start-offset draw `random.randint(0, L - seqlen - 1)` succeeds,
its value lies in the inclusive range `[0, L - seqlen - 1]`, and the
slice `[offset, offset + seqlen)` stays inside the encoded sequence;
when `L < seqlen + 1` the draw itself is ill-defined (Python raises
`ValueError`). -/
theorem offset_draw_in_range (enc : Encoding) (seqlen : Nat) (g : RngState) :
    (seqlen + 1 ≤ enc.input_ids.length →
      ∃ i g', randint mix 0 ((enc.input_ids.length : Int) - (seqlen : Int) - 1) g =
          some (i, g') ∧
        0 ≤ i ∧ i ≤ (enc.input_ids.length : Int) - (seqlen : Int) - 1 ∧
        i.toNat + seqlen ≤ enc.input_ids.length ∧
        ((enc.input_ids.drop i.toNat).take seqlen).length = seqlen) ∧
    (enc.input_ids.length < seqlen + 1 →
      randint mix 0 ((enc.input_ids.length : Int) - (seqlen : Int) - 1) g = none) := by
  constructor
  · intro h
    have hle : (0 : Int) ≤ (enc.input_ids.length : Int) - (seqlen : Int) - 1 := by
      omega
    have hr := randint_eq_some mix g hle
    obtain ⟨-, hlo, hhi, -⟩ := randint_some_spec mix hr
    refine ⟨_, _, hr, hlo, hhi, by omega, ?_⟩
    simp only [List.length_take, List.length_drop]
    omega
  · intro h
    unfold randint
    rw [if_neg]
    omega

/-- C4 witness: a concrete five-token encoding with `seqlen = 3`. -/
theorem offset_draw_in_range_witness :
    ∃ i g', randint mix0 0
        (((Encoding.mk [10, 20, 30, 40, 50] [1, 1, 1, 1, 1]).input_ids.length : Int) -
          (3 : Int) - 1) ⟨5, 2⟩ = some (i, g') ∧
      0 ≤ i ∧
      i ≤ (((Encoding.mk [10, 20, 30, 40, 50] [1, 1, 1, 1, 1]).input_ids.length : Int) -
            (3 : Int) - 1) ∧
      i.toNat + 3 ≤ (Encoding.mk [10, 20, 30, 40, 50] [1, 1, 1, 1, 1]).input_ids.length ∧
      (((Encoding.mk [10, 20, 30, 40, 50] [1, 1, 1, 1, 1]).input_ids.drop i.toNat).take 3).length = 3 :=
  (offset_draw_in_range mix0 ⟨[10, 20, 30, 40, 50], [1, 1, 1, 1, 1]⟩ 3 ⟨5, 2⟩).1
    (by decide)

/-- C5: every sample produced by the c4 path is cut from a record whose
truncated tokenization is strictly longer than `seqlen` — the rejection
loop only stops on such a record — and the produced window is a
full-length slice, never padded or short. -/
theorem c4_window_from_long_record (records : List String) (tok : Tokenizer)
    (maxLength seqlen fuel : Nat) (g : RngState) (s : Sample) (g2 : RngState)
    (h : c4SampleOne mix records tok maxLength seqlen fuel g = some (s, g2)) :
    ∃ enc g1, findLongRecord mix records tok maxLength seqlen fuel g = some (enc, g1) ∧
      seqlen < enc.input_ids.length ∧ s.inp.length = seqlen := by
  unfold c4SampleOne at h
  cases hf : findLongRecord mix records tok maxLength seqlen fuel g with
  | none => rw [hf] at h; cases h
  | some p =>
      obtain ⟨enc, g1⟩ := p
      rw [hf] at h
      obtain ⟨⟨j, hj, henc⟩, hlong⟩ :=
        findLongRecord_spec mix records tok maxLength seqlen fuel g enc g1 hf
      have hmask : enc.attention_mask.length = enc.input_ids.length := by
        rw [henc]; exact tokenize_mask_length tok maxLength _
      exact ⟨enc, g1, rfl, hlong, ((sampleDraw_spec mix hmask h).1).1⟩

/-- C5 witness: a concrete c4 iteration on `c40` (record 0 is the long
one). -/
theorem c4_window_from_long_record_witness :
    ∃ enc g1, findLongRecord mix0 c40.trainRecords charTok 40 3 5 (seedRng 0) =
        some (enc, g1) ∧
      3 < enc.input_ids.length ∧
      (Sample.mk [101, 108, 108] [1, 1, 1] [101, 108, 108]).inp.length = 3 :=
  c4_window_from_long_record mix0 c40.trainRecords charTok 40 3 5 (seedRng 0)
    ⟨[101, 108, 108], [1, 1, 1], [101, 108, 108]⟩ ⟨0, 2⟩ (by decide)

/-- C7: the c4 evaluation encoding is exactly the tokenization (under
the `max_length` cap) of the first 1100 validation records joined by
single spaces, truncated to at most `256 * seqlen` tokens; its length
therefore never exceeds `256 * seqlen`. -/
theorem c4_eval_encoding_capped (g0 : RngState) (corpus : C4Corpus)
    (nsamples seed seqlen : Nat) (tok : Tokenizer) (fuel : Nat)
    (l : List Sample) (v : List Nat)
    (h : get_c4 mix g0 corpus nsamples seed seqlen tok fuel = some (l, v)) :
    v = (tokenize tok (tok.modelMaxLength.getD seqlen)
          (String.intercalate " " (corpus.valRecords.take 1100))).input_ids.take
        (256 * seqlen) ∧
    v.length ≤ 256 * seqlen := by
  simp only [get_c4] at h
  cases hl : c4SampleLoop mix corpus.trainRecords tok
      (tok.modelMaxLength.getD seqlen) seqlen fuel nsamples (seedRng seed) with
  | none => rw [hl] at h; cases h
  | some p =>
      obtain ⟨l1, gf⟩ := p
      simp only [hl, Option.some.injEq, Prod.mk.injEq] at h
      obtain ⟨-, hv⟩ := h
      subst hv
      exact ⟨rfl, by simp [List.length_take]⟩

/-- C7 witness: a concrete c4 run; the evaluation ids have length 10 and
`256 * seqlen = 768`. -/
theorem c4_eval_encoding_capped_witness :
    ([118, 49, 32, 116, 101, 120, 116, 32, 118, 50] : List Nat) =
      (tokenize charTok (charTok.modelMaxLength.getD 3)
          (String.intercalate " " (c40.valRecords.take 1100))).input_ids.take (256 * 3) ∧
    ([118, 49, 32, 116, 101, 120, 116, 32, 118, 50] : List Nat).length ≤ 256 * 3 :=
  c4_eval_encoding_capped mix0 ⟨9, 9⟩ c40 2 0 3 charTok 5
    [⟨[101, 108, 108], [1, 1, 1], [101, 108, 108]⟩,
     ⟨[108, 111, 32], [1, 1, 1], [108, 111, 32]⟩]
    [118, 49, 32, 116, 101, 120, 116, 32, 118, 50] (by decide)

/-! Lemmas for the termination analysis of the c4 rejection loop. -/

theorem drawIdx_zero (records : List String) (g : RngState) (h : records ≠ []) :
    ((0 : Int) + (mix g.seed g.counter : Int) %
        ((records.length : Int) - 1 - 0 + 1)).toNat = drawIdx mix records g 0 := by
  have h1 : ((records.length : Int) - 1 - 0 + 1) = (records.length : Int) := by ring
  rw [h1, zero_add, ← Int.natCast_mod, Int.toNat_natCast]
  rfl

theorem drawIdx_next (records : List String) (g : RngState) (k : Nat) :
    drawIdx mix records g.next k = drawIdx mix records g (k + 1) := by
  unfold drawIdx RngState.next
  have : g.counter + 1 + k = g.counter + (k + 1) := by omega
  rw [this]

theorem findLongRecord_mono (records : List String) (tok : Tokenizer)
    (maxLength seqlen : Nat) :
    ∀ fuel fuel' g out, fuel ≤ fuel' →
      findLongRecord mix records tok maxLength seqlen fuel g = some out →
      findLongRecord mix records tok maxLength seqlen fuel' g = some out := by
  intro fuel
  induction fuel with
  | zero => intro fuel' g out _ h; cases h
  | succ fuel ih =>
      intro fuel' g out hle h
      obtain ⟨fuel'', rfl⟩ : ∃ k, fuel' = k + 1 := ⟨fuel' - 1, by omega⟩
      rw [findLongRecord] at h ⊢
      cases hr : randint mix 0 ((records.length : Int) - 1) g with
      | none => rw [hr] at h; cases h
      | some p =>
          obtain ⟨i, g'⟩ := p
          rw [hr] at h
          simp only at h ⊢
          split at h
          · rename_i hc
            rw [if_pos hc]
            exact h
          · rename_i hc
            rw [if_neg hc]
            exact ih fuel'' g' out (by omega) h

theorem c4SampleOne_mono (records : List String) (tok : Tokenizer)
    (maxLength seqlen : Nat) :
    ∀ fuel fuel' g out, fuel ≤ fuel' →
      c4SampleOne mix records tok maxLength seqlen fuel g = some out →
      c4SampleOne mix records tok maxLength seqlen fuel' g = some out := by
  intro fuel fuel' g out hle h
  unfold c4SampleOne at h ⊢
  cases hf : findLongRecord mix records tok maxLength seqlen fuel g with
  | none => rw [hf] at h; cases h
  | some p =>
      obtain ⟨enc, g1⟩ := p
      rw [hf] at h
      rw [findLongRecord_mono mix records tok maxLength seqlen fuel fuel' g
        (enc, g1) hle hf]
      exact h

theorem c4SampleLoop_fuel_mono (records : List String) (tok : Tokenizer)
    (maxLength seqlen : Nat) :
    ∀ n fuel fuel' g out, fuel ≤ fuel' →
      c4SampleLoop mix records tok maxLength seqlen fuel n g = some out →
      c4SampleLoop mix records tok maxLength seqlen fuel' n g = some out := by
  intro n
  induction n with
  | zero =>
      intro fuel fuel' g out _ h
      rw [c4SampleLoop] at h ⊢
      exact h
  | succ n ih =>
      intro fuel fuel' g out hle h
      rw [c4SampleLoop] at h ⊢
      cases hd : c4SampleOne mix records tok maxLength seqlen fuel g with
      | none => rw [hd] at h; cases h
      | some p =>
          obtain ⟨s1, g1⟩ := p
          rw [hd] at h
          rw [c4SampleOne_mono mix records tok maxLength seqlen fuel fuel' g
            (s1, g1) hle hd]
          simp only at h ⊢
          cases hrec : c4SampleLoop mix records tok maxLength seqlen fuel n g1 with
          | none => rw [hrec] at h; cases h
          | some q =>
              obtain ⟨l1, g2⟩ := q
              rw [hrec] at h
              rw [ih fuel fuel' g1 (l1, g2) hle hrec]
              exact h

theorem findLongRecord_reaches_fwd (records : List String) (tok : Tokenizer)
    (maxLength seqlen : Nat) :
    ∀ fuel g out, findLongRecord mix records tok maxLength seqlen fuel g = some out →
      records ≠ [] ∧ ∃ k, seqlen <
        tokLen tok maxLength (records.getD (drawIdx mix records g k) "") := by
  intro fuel
  induction fuel with
  | zero => intro g out h; cases h
  | succ fuel ih =>
      intro g out h
      rw [findLongRecord] at h
      by_cases hle : (0 : Int) ≤ (records.length : Int) - 1
      case neg =>
        unfold randint at h
        rw [if_neg hle] at h
        cases h
      case pos =>
        have hne : records ≠ [] := by
          intro he
          rw [he] at hle
          simp at hle
        rw [randint_eq_some mix g hle] at h
        simp only at h
        split at h
        · rename_i hlong
          refine ⟨hne, 0, ?_⟩
          rw [drawIdx_zero mix records g hne] at hlong
          exact hlong
        · obtain ⟨-, k, hk⟩ := ih g.next out h
          refine ⟨hne, k + 1, ?_⟩
          rw [drawIdx_next mix records g k] at hk
          exact hk

theorem findLongRecord_reaches_bwd (records : List String) (tok : Tokenizer)
    (maxLength seqlen : Nat) (hne : records ≠ []) :
    ∀ k g, seqlen < tokLen tok maxLength (records.getD (drawIdx mix records g k) "") →
      ∃ out, findLongRecord mix records tok maxLength seqlen (k + 1) g = some out := by
  have hle : (0 : Int) ≤ (records.length : Int) - 1 := by
    have := List.length_pos.mpr hne
    omega
  intro k
  induction k with
  | zero =>
      intro g hk
      rw [findLongRecord, randint_eq_some mix g hle]
      simp only
      rw [if_pos (by rw [drawIdx_zero mix records g hne]; exact hk)]
      exact ⟨_, rfl⟩
  | succ k ih =>
      intro g hk
      rw [findLongRecord, randint_eq_some mix g hle]
      simp only
      by_cases hc : seqlen < (tokenize tok maxLength
          (records.getD ((0 : Int) + (mix g.seed g.counter : Int) %
            ((records.length : Int) - 1 - 0 + 1)).toNat "")).input_ids.length
      · rw [if_pos hc]
        exact ⟨_, rfl⟩
      · rw [if_neg hc]
        apply ih g.next
        rw [drawIdx_next mix records g k]
        exact hk

theorem itersReach_of_loop (records : List String) (tok : Tokenizer)
    (maxLength seqlen : Nat) :
    ∀ n fuel g out, c4SampleLoop mix records tok maxLength seqlen fuel n g = some out →
      itersReach mix records tok maxLength seqlen n g := by
  intro n
  induction n with
  | zero =>
      intro fuel g out _
      rw [itersReach]
      trivial
  | succ n ih =>
      intro fuel g out h
      rw [c4SampleLoop] at h
      cases hd : c4SampleOne mix records tok maxLength seqlen fuel g with
      | none => rw [hd] at h; cases h
      | some p =>
          obtain ⟨s1, g2⟩ := p
          rw [hd] at h
          simp only at h
          unfold c4SampleOne at hd
          cases hf : findLongRecord mix records tok maxLength seqlen fuel g with
          | none => rw [hf] at hd; cases hd
          | some q =>
              obtain ⟨enc, g1⟩ := q
              rw [hf] at hd
              obtain ⟨⟨j, hj, henc⟩, hlong⟩ :=
                findLongRecord_spec mix records tok maxLength seqlen fuel g enc g1 hf
              have hmask : enc.attention_mask.length = enc.input_ids.length := by
                rw [henc]
                exact tokenize_mask_length tok maxLength _
              have hg2 : g2 = g1.next := (sampleDraw_spec mix hmask hd).2
              rw [itersReach]
              cases hrec : c4SampleLoop mix records tok maxLength seqlen fuel n g2 with
              | none => rw [hrec] at h; cases h
              | some r => exact ⟨fuel, enc, g1, hf, hg2 ▸ ih fuel g2 r hrec⟩

theorem loop_of_itersReach (records : List String) (tok : Tokenizer)
    (maxLength seqlen : Nat) :
    ∀ n g, itersReach mix records tok maxLength seqlen n g →
      ∃ fuel out, c4SampleLoop mix records tok maxLength seqlen fuel n g = some out := by
  intro n
  induction n with
  | zero => intro g _; exact ⟨0, ([], g), rfl⟩
  | succ n ih =>
      intro g hreach
      rw [itersReach] at hreach
      obtain ⟨fuel1, enc, g1, hf, hrest⟩ := hreach
      obtain ⟨fuel2, out2, hloop⟩ := ih g1.next hrest
      obtain ⟨l2, g3⟩ := out2
      have hf' := findLongRecord_mono mix records tok maxLength seqlen fuel1
        (max fuel1 fuel2) g (enc, g1) (le_max_left _ _) hf
      have hlong := (findLongRecord_spec mix records tok maxLength seqlen fuel1
        g enc g1 hf).2
      obtain ⟨s, hdraw⟩ := sampleDraw_eq_some mix enc seqlen g1 (by omega)
      have hloop' := c4SampleLoop_fuel_mono mix records tok maxLength seqlen n fuel2
        (max fuel1 fuel2) g1.next (l2, g3) (le_max_right _ _) hloop
      have hone : c4SampleOne mix records tok maxLength seqlen (max fuel1 fuel2) g =
          some (s, g1.next) := by
        unfold c4SampleOne
        rw [hf']
        exact hdraw
      refine ⟨max fuel1 fuel2, (s :: l2, g3), ?_⟩
      rw [c4SampleLoop, hone]
      simp only
      rw [hloop']

/-- C6: the c4 rejection loop has no retry bound.  `get_c4` terminates
(returns a result for some finite fuel) exactly when each of the
`nsamples` iterations eventually reaches a long-enough record
(`itersReach`); the rejection loop itself succeeds for some fuel exactly
when some draw index `k` hits a record whose truncated tokenization
exceeds `seqlen`; and when no training record tokenizes to more than
`seqlen` tokens, `get_c4` yields no result no matter how much fuel it is
given — the source program loops forever. -/
theorem c4_rejection_loop_unbounded (g0 : RngState) (corpus : C4Corpus)
    (nsamples seed seqlen : Nat) (tok : Tokenizer) :
    ((∃ fuel out, get_c4 mix g0 corpus nsamples seed seqlen tok fuel = some out) ↔
      itersReach mix corpus.trainRecords tok (tok.modelMaxLength.getD seqlen) seqlen
        nsamples (seedRng seed)) ∧
    (∀ g, (∃ fuel out, findLongRecord mix corpus.trainRecords tok
            (tok.modelMaxLength.getD seqlen) seqlen fuel g = some out) ↔
        (corpus.trainRecords ≠ [] ∧ ∃ k, seqlen <
            tokLen tok (tok.modelMaxLength.getD seqlen)
              (corpus.trainRecords.getD (drawIdx mix corpus.trainRecords g k) ""))) ∧
    ((∀ r ∈ corpus.trainRecords,
        tokLen tok (tok.modelMaxLength.getD seqlen) r ≤ seqlen) →
      1 ≤ nsamples →
      ∀ fuel, get_c4 mix g0 corpus nsamples seed seqlen tok fuel = none) := by
  refine ⟨⟨?_, ?_⟩, fun g => ⟨?_, ?_⟩, ?_⟩
  · rintro ⟨fuel, out, h⟩
    simp only [get_c4] at h
    cases hl : c4SampleLoop mix corpus.trainRecords tok
        (tok.modelMaxLength.getD seqlen) seqlen fuel nsamples (seedRng seed) with
    | none => rw [hl] at h; cases h
    | some p =>
        exact itersReach_of_loop mix corpus.trainRecords tok
          (tok.modelMaxLength.getD seqlen) seqlen nsamples fuel (seedRng seed) p hl
  · intro hreach
    obtain ⟨fuel, out, hloop⟩ := loop_of_itersReach mix corpus.trainRecords tok
      (tok.modelMaxLength.getD seqlen) seqlen nsamples (seedRng seed) hreach
    obtain ⟨l, gf⟩ := out
    refine ⟨fuel, (l, (tokenize tok (tok.modelMaxLength.getD seqlen)
      (String.intercalate " " (corpus.valRecords.take 1100))).input_ids.take
        (256 * seqlen)), ?_⟩
    simp only [get_c4]
    rw [hloop]
  · rintro ⟨fuel, out, h⟩
    exact findLongRecord_reaches_fwd mix corpus.trainRecords tok
      (tok.modelMaxLength.getD seqlen) seqlen fuel g out h
  · rintro ⟨hne, k, hk⟩
    obtain ⟨out, h⟩ := findLongRecord_reaches_bwd mix corpus.trainRecords tok
      (tok.modelMaxLength.getD seqlen) seqlen hne k g hk
    exact ⟨k + 1, out, h⟩
  · intro hshort hn fuel
    cases hc : get_c4 mix g0 corpus nsamples seed seqlen tok fuel with
    | none => rfl
    | some out =>
        exfalso
        simp only [get_c4] at hc
        cases hl : c4SampleLoop mix corpus.trainRecords tok
            (tok.modelMaxLength.getD seqlen) seqlen fuel nsamples (seedRng seed) with
        | none => rw [hl] at hc; cases hc
        | some p =>
            have hreach := itersReach_of_loop mix corpus.trainRecords tok
              (tok.modelMaxLength.getD seqlen) seqlen nsamples fuel (seedRng seed) p hl
            obtain ⟨m, rfl⟩ : ∃ m, nsamples = m + 1 := ⟨nsamples - 1, by omega⟩
            rw [itersReach] at hreach
            obtain ⟨fuel1, enc, g1, hf, -⟩ := hreach
            obtain ⟨⟨j, hj, henc⟩, hlong⟩ := findLongRecord_spec mix
              corpus.trainRecords tok (tok.modelMaxLength.getD seqlen) seqlen fuel1
              (seedRng seed) enc g1 hf
            have hmem : corpus.trainRecords.getD j "" ∈ corpus.trainRecords := by
              rw [List.getD_eq_getElem corpus.trainRecords "" hj]
              exact List.getElem_mem hj
            have hshort' := hshort _ hmem
            unfold tokLen at hshort'
            rw [← henc] at hshort'
            omega

/-- C6 witness: every record of `shortC4` tokenizes to at most 4 tokens,
so `get_c4` with `seqlen = 4` returns no result at fuel 9 (or any
other). -/
theorem c4_rejection_loop_unbounded_witness :
    get_c4 mix0 ⟨9, 9⟩ shortC4 2 0 4 charTok 9 = none :=
  (c4_rejection_loop_unbounded mix0 ⟨9, 9⟩ shortC4 2 0 4 charTok).2.2
    (by decide) (by decide) 9

/-! Claim theorems for the orchestration in `main.py`. -/

/-- C2: for a structured sparsity type ("4:8" or "2:4") with a ratio
different from 0.5 the run is rejected at the configuration step — the
event trace stays empty, in particular no model load is attempted — and
the run ends in the assertion error.  With ratio exactly 0.5 the pattern
string parses to (4, 8) resp. (2, 4); for "unstructured" both prune
parameters are 0. -/
theorem sparsity_config_validation (args : Args) (env : Env) :
    ((args.sparsity_type = "4:8" ∨ args.sparsity_type = "2:4") →
      args.sparsity_ratio ≠ 1 / 2 →
      (mainRun args env).1 = [] ∧
        Event.loadModel args.model ∉ (mainRun args env).1 ∧
        ∃ e, (mainRun args env).2 = Except.error e) ∧
    (args.sparsity_type = "4:8" → args.sparsity_ratio = 1 / 2 →
      (mainRun args env).2 = Except.ok (4, 8)) ∧
    (args.sparsity_type = "2:4" → args.sparsity_ratio = 1 / 2 →
      (mainRun args env).2 = Except.ok (2, 4)) ∧
    (args.sparsity_type = "unstructured" →
      (mainRun args env).2 = Except.ok (0, 0)) := by
  refine ⟨?_, ?_, ?_, ?_⟩
  · intro hst hr
    have hcfg : configureSparsity args.sparsity_type args.sparsity_ratio =
        Except.error "sparsity ratio must be 0.5 for structured N:M sparsity" := by
      unfold configureSparsity
      rcases hst with h | h <;> rw [h] <;>
        rw [if_pos (by decide), if_neg hr]
    have hm : mainRun args env =
        ([], Except.error "sparsity ratio must be 0.5 for structured N:M sparsity") := by
      simp only [mainRun, hcfg]
    rw [hm]
    exact ⟨rfl, by simp, _, rfl⟩
  · intro hst hr
    have hcfg : configureSparsity "4:8" (1 / 2) = Except.ok (4, 8) := by
      norm_num [configureSparsity, parseNM]
      rfl
    simp only [mainRun, hst, hr, hcfg]
  · intro hst hr
    have hcfg : configureSparsity "2:4" (1 / 2) = Except.ok (2, 4) := by
      norm_num [configureSparsity, parseNM]
      rfl
    simp only [mainRun, hst, hr, hcfg]
  · intro hst
    have hcfg : configureSparsity "unstructured" args.sparsity_ratio =
        Except.ok (0, 0) := by
      unfold configureSparsity
      rw [if_neg (by simp)]
    simp only [mainRun, hst, hcfg]

/-- C2 witness: sparsity type "2:4" with ratio 0.3 is rejected before
any model load. -/
theorem sparsity_config_validation_witness :
    (mainRun ⟨"m", "2:4", 3 / 10, "wanda", -1, "out", none⟩ env0).1 = [] ∧
      Event.loadModel "m" ∉
        (mainRun ⟨"m", "2:4", 3 / 10, "wanda", -1, "out", none⟩ env0).1 ∧
      ∃ e, (mainRun ⟨"m", "2:4", 3 / 10, "wanda", -1, "out", none⟩ env0).2 =
        Except.error e :=
  (sparsity_config_validation ⟨"m", "2:4", 3 / 10, "wanda", -1, "out", none⟩ env0).1
    (Or.inr rfl) (by norm_num)

/-- C8: a run that passes configuration with sparsity_ratio = 0 invokes
no pruning criterion, yet still audits sparsity, evaluates perplexity
and writes the log; with sparsity_ratio ≠ 0 and a recognized
prune_method, exactly one criterion — the one named — is invoked. -/
theorem eval_only_and_single_criterion (args : Args) (env : Env) (nm : Nat × Nat)
    (hcfg : configureSparsity args.sparsity_type args.sparsity_ratio = Except.ok nm) :
    (args.sparsity_ratio = 0 →
      (mainRun args env).1.filter isPruneEvent = [] ∧
      Event.audit env.sparsityResult ∈ (mainRun args env).1 ∧
      Event.evalPpl env.pplResult ∈ (mainRun args env).1 ∧
      Event.writeLog env.sparsityResult env.pplResult ∈ (mainRun args env).1) ∧
    (args.sparsity_ratio ≠ 0 →
      args.prune_method ∈ ["magnitude", "wanda", "sparsegpt", "gradient", "gblm"] →
      (mainRun args env).1.filter isPruneEvent = [Event.pruneCall args.prune_method]) := by
  have hmain : (mainRun args env).1 = Event.loadModel args.model ::
      runAfterCorpusSelect args env (selectDatasetName args.model) := by
    simp only [mainRun, hcfg]
  constructor
  · intro h0
    rw [hmain]
    unfold runAfterCorpusSelect pruneDispatch
    rw [if_neg (by simp [h0])]
    cases hsm : args.save_model with
    | none => simp [isPruneEvent]
    | some p => simp [isPruneEvent]
  · intro h0 hm
    rw [hmain]
    unfold runAfterCorpusSelect pruneDispatch
    rw [if_pos h0]
    simp only [List.mem_cons, List.not_mem_nil, or_false] at hm
    rcases hm with h | h | h | h | h <;>
      rw [h] <;>
      cases hsm : args.save_model <;>
      simp [isPruneEvent]

/-- C8 witness: a ratio-0 run performs audit, evaluation and log write
with no pruning call; a ratio-0.5 run with method "gblm" performs
exactly that one pruning call. -/
theorem eval_only_and_single_criterion_witness :
    ((mainRun ⟨"m", "unstructured", 0, "wanda", -1, "out", none⟩ env0).1.filter
        isPruneEvent = [] ∧
      Event.audit env0.sparsityResult ∈
        (mainRun ⟨"m", "unstructured", 0, "wanda", -1, "out", none⟩ env0).1 ∧
      Event.evalPpl env0.pplResult ∈
        (mainRun ⟨"m", "unstructured", 0, "wanda", -1, "out", none⟩ env0).1 ∧
      Event.writeLog env0.sparsityResult env0.pplResult ∈
        (mainRun ⟨"m", "unstructured", 0, "wanda", -1, "out", none⟩ env0).1) ∧
    (mainRun ⟨"m2", "unstructured", 1 / 2, "gblm", -1, "out", none⟩ env0).1.filter
        isPruneEvent = [Event.pruneCall "gblm"] :=
  ⟨(eval_only_and_single_criterion
      ⟨"m", "unstructured", 0, "wanda", -1, "out", none⟩ env0 (0, 0) rfl).1 rfl,
   (eval_only_and_single_criterion
      ⟨"m2", "unstructured", 1 / 2, "gblm", -1, "out", none⟩ env0 (0, 0) rfl).2
     (by norm_num) (by decide)⟩

/-- C9: the downstream device defaults to the first accelerator
(`cuda:0`); when the model identifier contains one of the substrings
"30b", "65b", "70b" the device hosting `lm_head` is selected instead —
in particular an identifier containing "70b" selects the head's
device. -/
theorem device_selection (m : String) (env : Env) :
    (strContains m "30b" = false → strContains m "65b" = false →
      strContains m "70b" = false → selectDevice m env = Device.cuda0) ∧
    ((strContains m "30b" = true ∨ strContains m "65b" = true ∨
      strContains m "70b" = true) →
      selectDevice m env = Device.fromMap env.lmHeadDevice) := by
  constructor
  · intro h1 h2 h3
    unfold selectDevice
    rw [if_neg (by rw [h1, h2, h3]; simp)]
  · intro h
    unfold selectDevice
    rw [if_pos (by rcases h with h | h | h <;> rw [h] <;> simp)]

/-- C9 witness: a "70b" identifier selects the lm_head device. -/
theorem device_selection_witness :
    selectDevice "meta-llama/Llama-2-70b-hf" env0 = Device.fromMap env0.lmHeadDevice :=
  (device_selection "meta-llama/Llama-2-70b-hf" env0).2 (Or.inr (Or.inr (by decide)))

/-- C10: the locally computed `dataset_name` is never passed to any
downstream call: the post-selection stage of `main` (lines 133–164 —
pruning dispatch, sparsity audit, perplexity evaluation, log write,
optional model save) produces identical observables for any two values
of `dataset_name`, all other inputs equal. -/
theorem dataset_name_unused (args : Args) (env : Env) (d1 d2 : String) :
    runAfterCorpusSelect args env d1 = runAfterCorpusSelect args env d2 := rfl

end Pruner
